import Mathlib

/-!
# Cauldron server — verification of the request-validation and response pipeline

Shallow embedding of `src/server.js` (the Cauldron web backend).  Strings are
Lean `String`s (lists of characters); the few JavaScript string primitives the
server uses (`trim`, `toLowerCase`, `includes`, `indexOf`, the falsy-based
`||` operator) are modelled explicitly below, restricted to the ASCII range
the banned-term list and the fixed messages live in.  Request bodies are
records of optional string fields (a missing JSON field is `none`); the
outcome of the awaited OpenAI call and of the database insert are passed to
the handler as explicit parameters, and the handler returns the HTTP response
together with the ordered list of externally visible events it performs.
-/

namespace Cauldron

/-- Character class trimmed by JavaScript `String.prototype.trim`: the ASCII
whitespace characters plus NBSP and the BOM (code points 32, 9, 10, 13, 11,
12, 160, 65279).  Rarer Unicode space separators are outside the model. -/
def isJsWhitespace (c : Char) : Bool :=
  c.toNat = 32 || c.toNat = 9 || c.toNat = 10 || c.toNat = 13 ||
  c.toNat = 11 || c.toNat = 12 || c.toNat = 160 || c.toNat = 65279

/-- `trim` on the character list: drop whitespace from the front, then from
the back (via reverse). -/
def trimListJs (l : List Char) : List Char :=
  ((l.dropWhile isJsWhitespace).reverse.dropWhile isJsWhitespace).reverse

/-- JavaScript `String.prototype.trim`. -/
def trimJs (s : String) : String :=
  ⟨trimListJs s.data⟩

/-- JavaScript `String.prototype.toLowerCase`, on the ASCII range: the
letters A–Z map to a–z, every other character is unchanged (the special
Unicode casings are outside the model). -/
def jsToLowerChar (c : Char) : Char :=
  match c with
  | 'A' => 'a' | 'B' => 'b' | 'C' => 'c' | 'D' => 'd' | 'E' => 'e'
  | 'F' => 'f' | 'G' => 'g' | 'H' => 'h' | 'I' => 'i' | 'J' => 'j'
  | 'K' => 'k' | 'L' => 'l' | 'M' => 'm' | 'N' => 'n' | 'O' => 'o'
  | 'P' => 'p' | 'Q' => 'q' | 'R' => 'r' | 'S' => 's' | 'T' => 't'
  | 'U' => 'u' | 'V' => 'v' | 'W' => 'w' | 'X' => 'x' | 'Y' => 'y'
  | 'Z' => 'z'
  | c => c

/-- `toLowerCase` on strings, mapping `jsToLowerChar` over the characters. -/
def jsToLower (s : String) : String :=
  ⟨s.data.map jsToLowerChar⟩

/-- `t` is a prefix of `l` (Boolean, by direct recursion). -/
def isSegPre (t l : List Char) : Bool :=
  match t, l with
  | [], _ => true
  | _ :: _, [] => false
  | a :: t', b :: l' => a == b && isSegPre t' l'

/-- `t` occurs as a contiguous segment of `l` (Boolean).  This is the
containment test behind JavaScript `String.prototype.includes`. -/
def segIn (t l : List Char) : Bool :=
  match l with
  | [] => isSegPre t []
  | _ :: l' => isSegPre t l || segIn t l'

/-- JavaScript `s.includes(t)`. -/
def strIncludes (s t : String) : Bool :=
  segIn t.data s.data

/-- JavaScript `a || b` for an optional string `a` (a missing field is
`none`) and a string default `b`: the empty string is falsy. -/
def jsOrS (a : Option String) (b : String) : String :=
  match a with
  | some s => if s = "" then b else s
  | none => b

end Cauldron

namespace Cauldron

/-! ## Characterisations of the string primitives -/

/-- `isSegPre` tests prefix-hood: `t` is a prefix of `l` iff `l = t ++ r`. -/
theorem isSegPre_iff (t l : List Char) :
    isSegPre t l = true ↔ ∃ r, l = t ++ r := by
  induction t generalizing l with
  | nil => simp [isSegPre]
  | cons a t' ih =>
    cases l with
    | nil => simp [isSegPre]
    | cons b l' =>
      simp only [isSegPre, Bool.and_eq_true, beq_iff_eq, ih, List.cons_append,
        List.cons.injEq]
      constructor
      · rintro ⟨rfl, r, rfl⟩; exact ⟨r, rfl, rfl⟩
      · rintro ⟨r, rfl, rfl⟩; exact ⟨rfl, r, rfl⟩

/-- `segIn` tests segment containment: `t` occurs in `l` iff
`l = a ++ t ++ b` for some `a`, `b`. -/
theorem segIn_iff (t l : List Char) :
    segIn t l = true ↔ ∃ a b, l = a ++ t ++ b := by
  induction l with
  | nil =>
    simp only [segIn, isSegPre_iff]
    constructor
    · rintro ⟨r, hr⟩
      exact ⟨[], r, by simpa using hr⟩
    · rintro ⟨a, b, hab⟩
      have := hab.symm
      rcases List.append_eq_nil.mp (List.append_eq_nil.mp this).1 with ⟨_, h2⟩
      exact ⟨b, by simp [h2, (List.append_eq_nil.mp this).2.symm, hab]⟩
  | cons x l' ih =>
    simp only [segIn, Bool.or_eq_true, isSegPre_iff, ih]
    constructor
    · rintro (⟨r, hr⟩ | ⟨a, b, hab⟩)
      · exact ⟨[], r, by simpa using hr⟩
      · exact ⟨x :: a, b, by simp [hab]⟩
    · rintro ⟨a, b, hab⟩
      cases a with
      | nil => exact Or.inl ⟨b, by simpa using hab⟩
      | cons y a' =>
        right
        refine ⟨a', b, ?_⟩
        have h := hab
        simp only [List.cons_append] at h
        exact (List.cons.injEq .. ▸ h).2

/-- Lowercasing a character does not change whether it is whitespace. -/
theorem ws_jsToLowerChar (c : Char) :
    isJsWhitespace (jsToLowerChar c) = isJsWhitespace c := by
  unfold jsToLowerChar
  split <;> rfl

/-- `dropWhile` keeps any occurrence of a segment whose first character the
predicate rejects: only characters strictly before the occurrence can be
dropped. -/
theorem dropWhile_keeps (p : Char → Bool) (c : Char) (t' b : List Char)
    (hc : p c = false) :
    ∀ a : List Char,
      ∃ a', (a ++ (c :: t') ++ b).dropWhile p = a' ++ (c :: t') ++ b := by
  intro a
  induction a with
  | nil => exact ⟨[], by simp [List.dropWhile_cons, hc]⟩
  | cons x a2 ih =>
    by_cases hx : p x
    · obtain ⟨a', ha'⟩ := ih
      refine ⟨a', ?_⟩
      simpa [List.dropWhile_cons, hx] using ha'
    · exact ⟨x :: a2, by simp [List.dropWhile_cons, hx]⟩

/-- Trimming keeps any occurrence of a segment whose first and last
characters are not whitespace: `trim` only removes characters at the two
ends of the string. -/
theorem trim_keeps_seg (t l : List Char) (c d : Char)
    (h1 : t.head? = some c) (hc : isJsWhitespace c = false)
    (h2 : t.getLast? = some d) (hd : isJsWhitespace d = false)
    (h : ∃ a b, l = a ++ t ++ b) :
    ∃ a b, trimListJs l = a ++ t ++ b := by
  obtain ⟨a, b, rfl⟩ := h
  cases t with
  | nil => simp at h1
  | cons c0 t1 =>
    have hc' : isJsWhitespace c0 = false := by
      have : c0 = c := by simpa using h1
      rw [this]; exact hc
    obtain ⟨a1, e1⟩ := dropWhile_keeps isJsWhitespace c0 t1 b hc' a
    have hrev : (c0 :: t1).reverse.head? = some d := by
      rw [List.head?_reverse]; exact h2
    obtain ⟨r, hr⟩ : ∃ r, (c0 :: t1).reverse = d :: r := by
      cases hrl : (c0 :: t1).reverse with
      | nil => rw [hrl] at hrev; simp at hrev
      | cons x xs =>
        rw [hrl] at hrev
        have hx : x = d := by simpa using hrev
        refine ⟨xs, ?_⟩
        rw [hx]
    have e1r : ((a ++ (c0 :: t1) ++ b).dropWhile isJsWhitespace).reverse
        = b.reverse ++ (d :: r) ++ a1.reverse := by
      rw [e1, ← hr]; simp [List.reverse_append, List.append_assoc]
    obtain ⟨a2, e2⟩ := dropWhile_keeps isJsWhitespace d r a1.reverse hd b.reverse
    refine ⟨a1, a2.reverse, ?_⟩
    unfold trimListJs
    rw [e1r]
    have e2' : (b.reverse ++ (d :: r) ++ a1.reverse).dropWhile isJsWhitespace
        = a2 ++ (d :: r) ++ a1.reverse := e2
    rw [e2', ← hr]
    simp [List.reverse_append, List.append_assoc]

/-- `dropWhile` commutes with mapping a function that preserves the
predicate. -/
theorem dropWhile_map_comm (p : Char → Bool) (f : Char → Char)
    (hp : ∀ x, p (f x) = p x) (l : List Char) :
    (l.map f).dropWhile p = (l.dropWhile p).map f := by
  induction l with
  | nil => rfl
  | cons x l' ih =>
    by_cases hx : p x
    · simp [List.dropWhile_cons, hp, hx, ih]
    · simp [List.dropWhile_cons, hp, hx]

/-- Trimming commutes with mapping a whitespace-preserving function. -/
theorem trimListJs_map (f : Char → Char)
    (hf : ∀ x, isJsWhitespace (f x) = isJsWhitespace x) (l : List Char) :
    trimListJs (l.map f) = (trimListJs l).map f := by
  unfold trimListJs
  rw [dropWhile_map_comm _ _ hf, ← List.map_reverse, dropWhile_map_comm _ _ hf,
    ← List.map_reverse]

/-! ## The safety filter (`BANNED` and the `unsafeHit` check) -/

/-- The fixed banned-term list of `src/server.js`, in source order. -/
def BANNED : List String :=
  ["gun", "knife", "blade", "razor", "razorblade", "machete", "sword",
   "bullet", "ammo",
   "explosive", "gunpowder", "firework", "noose", "syringe",
   "acid", "poison", "bleach", "ammonia", "lye", "gasoline", "lighter fluid",
   "matches",
   "blood",
   "drug", "drugs", "heroin", "cocaine", "meth", "amphetamine", "opioid",
   "oxycontin",
   "fentanyl", "xanax", "adderall", "marijuana", "weed", "lsd", "mushroom",
   "shroom",
   "prescription", "pharmaceutical", "narcotic", "pill", "tablet", "capsule",
   "swastika", "kkk", "klan", "racist", "white power", "nazi", "supremacist",
   "confederate flag", "hate symbol"]

/-- The JS variable named after the safety check in `src/server.js`:
the truthiness guard on the lowercased ingredients string, followed by
`BANNED.find(t => ingredients.toLowerCase().includes(t))`.  `none` means the
JS value was falsy (empty string or `undefined`), `some t` the first banned
term, in list order, occurring in the lowercased ingredients. -/
def bannedHit (ingredients : String) : Option String :=
  if jsToLower ingredients = "" then none
  else BANNED.find? fun t => strIncludes (jsToLower ingredients) t

/-- Fixed prefix of the safety-rejection message (up to the opening curly
quote around the offending term). -/
def bannedMessagePre : String :=
  "For safety and inclusivity, Cauldron cannot use or reference “"

/-- Fixed suffix of the safety-rejection message (from the closing curly
quote after the offending term). -/
def bannedMessagePost : String :=
  "”. Please choose benign items like herbs, crystals, candles, colors, paper, string, salt, water, or stones."

/-- The 400 error message produced on a banned-term match, with the
offending term interpolated. -/
def bannedMessage (t : String) : String :=
  bannedMessagePre ++ t ++ bannedMessagePost

/-! ## The length presets and the preset lookup -/

/-- One entry of `lengthConfig`: a token cap and a guideline sentence. -/
structure LengthPreset where
  max_tokens : Nat
  guide : String
deriving DecidableEq, Repr

/-- `lengthConfig.short` from `src/server.js`. -/
def shortPreset : LengthPreset :=
  ⟨200, "Length: ~90–180 words total. Use 1–2 simple ritual steps and a spoken poetic spell."⟩

/-- `lengthConfig.medium` from `src/server.js`. -/
def mediumPreset : LengthPreset :=
  ⟨350, "Length: ~180–300 words total. Use 2–3 simple ritual steps and a spoken poetic spell."⟩

/-- `lengthConfig.long` from `src/server.js`. -/
def longPreset : LengthPreset :=
  ⟨500, "Length: ~300–400 words total. Use 3–4 simple ritual steps and a spoken poetic spell."⟩

/-- Result of the JavaScript property read `lengthConfig[key]`: one of the
three own properties, a truthy value inherited from `Object.prototype`
(a function, or the prototype object itself for the key `__proto__` —
truthy but not a preset), or `undefined` (falsy). -/
inductive JsLookup where
  | preset (p : LengthPreset)
  | protoValue
  | undefinedValue
deriving DecidableEq, Repr

/-- The own property names of `Object.prototype` in Node.js: every property
read on a plain object literal with one of these keys yields a truthy
inherited value. -/
def objectPrototypeKeys : List String :=
  ["constructor", "hasOwnProperty", "isPrototypeOf", "propertyIsEnumerable",
   "toLocaleString", "toString", "valueOf", "__defineGetter__",
   "__defineSetter__", "__lookupGetter__", "__lookupSetter__", "__proto__"]

/-- The JavaScript property read `lengthConfig[key]` on the object literal
`lengthConfig`, including the prototype chain walk. -/
def lengthConfigLookup (k : String) : JsLookup :=
  if k = "short" then .preset shortPreset
  else if k = "medium" then .preset mediumPreset
  else if k = "long" then .preset longPreset
  else if objectPrototypeKeys.contains k then .protoValue
  else .undefinedValue

/-- `const L = lengthConfig[length] || lengthConfig.medium` — the falsy-based
fallback: only an `undefined` lookup result falls back to the medium
preset. -/
def resolveLength (k : String) : JsLookup :=
  match lengthConfigLookup k with
  | .undefinedValue => .preset mediumPreset
  | r => r

/-- The whole Length Preset Resolver as applied to the request field:
`(body.length || 'medium').toLowerCase()` followed by the lookup with
fallback. -/
def resolveLengthField (lengthField : Option String) : JsLookup :=
  resolveLength (jsToLower (jsOrS lengthField "medium"))

/-! ## The completion reply and the spell extraction -/

/-- `choices[i].message` of a chat-completion reply. -/
structure ChatMessage where
  content : Option String
deriving DecidableEq, Repr

/-- One element of `completion.choices`. -/
structure ChatChoice where
  message : Option ChatMessage
deriving DecidableEq, Repr

/-- A delivered chat-completion reply, possibly malformed: any level of the
`completion.choices[0].message.content` chain may be missing. -/
structure Completion where
  choices : Option (List ChatChoice)
deriving DecidableEq, Repr

/-- The guarded chain
`completion && completion.choices && completion.choices[0] &&
completion.choices[0].message && completion.choices[0].message.content || ''`:
the content string when every link is present, otherwise the empty string
(the `|| ''` collapses every falsy outcome of the chain to `''`). -/
def extractContent (c : Option Completion) : String :=
  match c with
  | none => ""
  | some comp =>
    match comp.choices with
    | none => ""
    | some [] => ""
    | some (ch :: _) =>
      match ch.message with
      | none => ""
      | some m =>
        match m.content with
        | none => ""
        | some s => s

/-- The fixed fallback sentence substituted for an unusable completion. -/
def fallbackSpell : String := "The spirits whisper, but words fail to form."

/-- `const spell = (…chain… || '').trim() || '…fallback…'`. -/
def spellOf (c : Option Completion) : String :=
  if trimJs (extractContent c) = "" then fallbackSpell
  else trimJs (extractContent c)

/-! ## Upstream failures and the catch branch -/

/-- An exception thrown by the awaited OpenAI call: the fields the catch
branch of `/cast-spell` reads from it.  A `none` models a missing (or
otherwise falsy-collapsing) field, `some ""` an empty string (also falsy
in JS). -/
structure UpstreamError where
  status : Option Nat
  message : Option String
  dataErrorMessage : Option String
deriving DecidableEq, Repr

/-- `log.data?.error?.message || log.message || 'OpenAI error'` — the error
string of the 500 response. -/
def upstreamErrorMessage (e : UpstreamError) : String :=
  jsOrS e.dataErrorMessage (jsOrS e.message "OpenAI error")

/-! ## The `/cast-spell` handler -/

/-- A JSON response body of `/cast-spell`: `{ spell }` or `{ error }`. -/
inductive JsonBody where
  | spellBody (s : String)
  | errorBody (s : String)
deriving DecidableEq, Repr

/-- An HTTP response: status code and JSON body. -/
structure HttpResponse where
  status : Nat
  body : JsonBody
deriving DecidableEq, Repr

/-- The externally visible actions of one `/cast-spell` request, in the
order the handler performs them. -/
inductive Event where
  | callCompletion (L : JsLookup)
  | respond (r : HttpResponse)
  | dbInsert (intent length spellText : String)
  | logDbError
deriving DecidableEq, Repr

/-- Whether an event is the database insert. -/
def Event.isDbInsert : Event → Bool
  | .dbInsert _ _ _ => true
  | _ => false

/-- The body of a `POST /cast-spell` request: the three fields the handler
reads, each possibly missing.  (Non-string JSON values are outside the
model.) -/
structure CastSpellRequest where
  intent : Option String
  length : Option String
  ingredients : Option String
deriving DecidableEq, Repr

/-- Result of one `/cast-spell` request: the HTTP response and the ordered
event trace. -/
structure CastSpellResult where
  response : HttpResponse
  events : List Event
deriving DecidableEq, Repr

/-- The `/cast-spell` handler of `src/server.js`.  The outcome of the
awaited OpenAI call is the `upstream` parameter (`Except.error` models a
thrown exception, caught by the catch branch; `Except.ok` a delivered
reply), consulted only when the handler reaches the call.  `dbOk` is the
outcome of the fire-and-forget `db.query` insert, whose rejection is
handled by `.catch(err => console.error(…))`. -/
def castSpell (req : CastSpellRequest)
    (upstream : Except UpstreamError (Option Completion)) (dbOk : Bool) :
    CastSpellResult :=
  let intent := trimJs (jsOrS req.intent "")
  let length := jsToLower (jsOrS req.length "medium")
  let ingredients := trimJs (jsOrS req.ingredients "")
  match bannedHit ingredients with
  | some t =>
    let r : HttpResponse := ⟨400, .errorBody (bannedMessage t)⟩
    ⟨r, [.respond r]⟩
  | none =>
    if intent = "" then
      let r : HttpResponse := ⟨400, .errorBody "No intention provided."⟩
      ⟨r, [.respond r]⟩
    else
      let L := resolveLength length
      match upstream with
      | .error e =>
        let r : HttpResponse := ⟨500, .errorBody (upstreamErrorMessage e)⟩
        ⟨r, [.callCompletion L, .respond r]⟩
      | .ok c =>
        let spell := spellOf c
        let r : HttpResponse := ⟨200, .spellBody spell⟩
        ⟨r, [.callCompletion L, .respond r, .dbInsert intent length spell]
          ++ if dbOk then [] else [.logDbError]⟩

/-! ## The `/subscribe` handler -/

/-- A JSON response body of `/subscribe`: `{ message }` or `{ error }`. -/
inductive SubscribeBody where
  | messageBody (s : String)
  | errorBody (s : String)
deriving DecidableEq, Repr

/-- Result of one `/subscribe` request: status, body, and the subscriber
store after the request (the parsed contents of `emails.json`; a missing
file is the empty list). -/
structure SubscribeResult where
  status : Nat
  body : SubscribeBody
  store : List String
deriving DecidableEq, Repr

/-- `email.indexOf('@') !== -1`. -/
def hasAt (email : String) : Bool :=
  email.data.contains '@'

/-- The `/subscribe` handler of `src/server.js`, with the file read/write
modelled as the in-memory `store` list (file-system failures, which the
route maps to a 500, are outside the model). -/
def subscribe (store : List String) (emailField : Option String) :
    SubscribeResult :=
  let email := jsOrS emailField ""
  if email = "" || !hasAt email then
    ⟨400, .errorBody "Invalid email address.", store⟩
  else if store.contains email then
    ⟨200, .messageBody "Email already subscribed.", store⟩
  else
    ⟨200, .messageBody "Subscription successful!", store ++ [email]⟩

/-! ## Small helper lemmas about the embedding -/

/-- The character list of a concatenation is the concatenation of the
character lists. -/
theorem strData_append (a b : String) : (a ++ b).data = a.data ++ b.data := by
  cases a; cases b; rfl

/-- A string equals `""` exactly when its character list is empty. -/
theorem str_eq_empty_iff (s : String) : s = "" ↔ s.data = [] := by
  cases s with
  | mk l =>
    constructor
    · intro h
      rw [show (⟨l⟩ : String) = ("" : String) from h]
    · intro h
      rw [show l = ([] : List Char) from h]

/-- Character list of the lowercased string. -/
theorem jsToLower_data (s : String) :
    (jsToLower s).data = s.data.map jsToLowerChar := rfl

/-- Character list of the trimmed string. -/
theorem trimJs_data (s : String) : (trimJs s).data = trimListJs s.data := rfl

/-- The first character exists and is not whitespace (Boolean check, used
to state a fact about every entry of `BANNED` by evaluation). -/
def headNonWs (t : String) : Bool :=
  match t.data with
  | [] => false
  | c :: _ => !isJsWhitespace c

/-- The last character exists and is not whitespace. -/
def lastNonWs (t : String) : Bool :=
  match t.data.getLast? with
  | none => false
  | some c => !isJsWhitespace c

/-- Every banned term is nonempty and starts and ends with a
non-whitespace character (so trimming an ingredients string can never
destroy an occurrence of a banned term). -/
theorem banned_ends : ∀ t ∈ BANNED, headNonWs t = true ∧ lastNonWs t = true := by
  decide

/-- Unpack `headNonWs`. -/
theorem headNonWs_spec (t : String) (h : headNonWs t = true) :
    ∃ c, t.data.head? = some c ∧ isJsWhitespace c = false := by
  unfold headNonWs at h
  cases hd : t.data with
  | nil => rw [hd] at h; simp at h
  | cons c r =>
    rw [hd] at h
    exact ⟨c, by simp [hd], by simpa using h⟩

/-- Unpack `lastNonWs`. -/
theorem lastNonWs_spec (t : String) (h : lastNonWs t = true) :
    ∃ c, t.data.getLast? = some c ∧ isJsWhitespace c = false := by
  unfold lastNonWs at h
  cases hd : t.data.getLast? with
  | none => rw [hd] at h; simp at h
  | some c =>
    rw [hd] at h
    exact ⟨c, rfl, by simpa using h⟩

/-- An email with an `@` is in particular nonempty. -/
theorem hasAt_ne_empty {email : String} (h : hasAt email = true) :
    email ≠ "" := by
  intro he
  rw [he] at h
  exact absurd h (by decide)

/-- `subscribe` on an email failing the `@` check: 400, store unchanged.
(The `!email` disjunct of the guard is subsumed: the empty string has no
`@`.) -/
theorem subscribe_eq_invalid (store : List String) (f : Option String)
    (h : hasAt (jsOrS f "") = false) :
    subscribe store f = ⟨400, .errorBody "Invalid email address.", store⟩ := by
  unfold subscribe
  by_cases he : jsOrS f "" = ""
  · simp [he]
  · simp [he, h]

/-- `subscribe` on a valid email already present: 200, store unchanged. -/
theorem subscribe_eq_dup (store : List String) (f : Option String)
    (h : hasAt (jsOrS f "") = true) (hmem : jsOrS f "" ∈ store) :
    subscribe store f
      = ⟨200, .messageBody "Email already subscribed.", store⟩ := by
  unfold subscribe
  simp [hasAt_ne_empty h, h, List.elem_eq_mem, hmem]

/-- `subscribe` on a valid email not yet present: 200, email appended. -/
theorem subscribe_eq_new (store : List String) (f : Option String)
    (h : hasAt (jsOrS f "") = true) (hmem : jsOrS f "" ∉ store) :
    subscribe store f
      = ⟨200, .messageBody "Subscription successful!", store ++ [jsOrS f ""]⟩ := by
  unfold subscribe
  simp [hasAt_ne_empty h, h, List.elem_eq_mem, hmem]

/-- The validation guard, restated over the raw optional field: the
defaulted email has no `@` exactly when the field is missing, empty, or a
string without `@`. -/
theorem invalidCond_iff (f : Option String) :
    hasAt (jsOrS f "") = false ↔
      (f = none ∨ f = some "" ∨ ∃ s, f = some s ∧ hasAt s = false) := by
  cases f with
  | none => simp [jsOrS]; decide
  | some s =>
    by_cases hs : s = ""
    · subst hs
      simp [jsOrS]
      decide
    · simp [jsOrS, hs]

/-! ## The claims -/

set_option maxRecDepth 100000

/-- **C4.** For every completion-service reply from which no usable text can
be extracted (any break in the `choices[0].message.content` chain, or
content that trims to the empty string), the `spell` field returned by
`POST /cast-spell` is the fixed fallback sentence, which is not the empty
string. -/
theorem castSpell_fallback_spell (req : CastSpellRequest)
    (c : Option Completion) (dbOk : Bool)
    (hf : bannedHit (trimJs (jsOrS req.ingredients "")) = none)
    (hi : trimJs (jsOrS req.intent "") ≠ "")
    (hc : trimJs (extractContent c) = "") :
    (castSpell req (.ok c) dbOk).response = ⟨200, .spellBody fallbackSpell⟩ ∧
    fallbackSpell ≠ "" := by
  refine ⟨?_, by decide⟩
  simp [castSpell, hf, hi, spellOf, hc]

/-- Witness for C4: a reply with an empty `choices` array yields the
fallback sentence. -/
theorem castSpell_fallback_spell_witness :
    (castSpell ⟨some "find clarity", none, none⟩
        (.ok (some ⟨some []⟩)) true).response
      = ⟨200, .spellBody fallbackSpell⟩ ∧ fallbackSpell ≠ "" :=
  castSpell_fallback_spell ⟨some "find clarity", none, none⟩
    (some ⟨some []⟩) true (by decide) (by decide) (by decide)

/-- **C7.** Every failure of the upstream completion call is answered with
status 500, and the error message is the upstream-provided message when one
is available (the response-body message first, then the exception message),
else the generic `"OpenAI error"`. -/
theorem castSpell_upstream_failure (req : CastSpellRequest)
    (e : UpstreamError) (dbOk : Bool)
    (hf : bannedHit (trimJs (jsOrS req.ingredients "")) = none)
    (hi : trimJs (jsOrS req.intent "") ≠ "") :
    (castSpell req (.error e) dbOk).response
        = ⟨500, .errorBody (upstreamErrorMessage e)⟩ ∧
    (∀ m, e.dataErrorMessage = some m → m ≠ "" → upstreamErrorMessage e = m) ∧
    (∀ m, (e.dataErrorMessage = none ∨ e.dataErrorMessage = some "") →
      e.message = some m → m ≠ "" → upstreamErrorMessage e = m) ∧
    ((e.dataErrorMessage = none ∨ e.dataErrorMessage = some "") →
      (e.message = none ∨ e.message = some "") →
      upstreamErrorMessage e = "OpenAI error") := by
  refine ⟨by simp [castSpell, hf, hi], ?_, ?_, ?_⟩
  · intro m hm hne
    simp [upstreamErrorMessage, jsOrS, hm, hne]
  · intro m hd hm hne
    rcases hd with hd | hd <;> simp [upstreamErrorMessage, jsOrS, hd, hm, hne]
  · intro hd hm
    rcases hd with hd | hd <;> rcases hm with hm | hm <;>
      simp [upstreamErrorMessage, jsOrS, hd, hm]

/-- Witness for C7: a network-style exception carrying only `e.message`. -/
theorem castSpell_upstream_failure_witness :
    (castSpell ⟨some "find clarity", none, none⟩
        (.error ⟨none, some "connect ECONNREFUSED", none⟩) true).response
      = ⟨500, .errorBody (upstreamErrorMessage
          ⟨none, some "connect ECONNREFUSED", none⟩)⟩ :=
  (castSpell_upstream_failure ⟨some "find clarity", none, none⟩
    ⟨none, some "connect ECONNREFUSED", none⟩ true (by decide) (by decide)).1

/-- **C5.** Subscribing the same email twice is idempotent: for a valid
email (it has an `@`) and a store holding at most one copy of it, both
requests return 200, the second leaves the store unchanged, and afterwards
the store holds exactly one copy of the email. -/
theorem subscribe_twice_idempotent (store : List String) (email : String)
    (hAt : hasAt email = true) (hCount : store.count email ≤ 1) :
    (subscribe store (some email)).status = 200 ∧
    (subscribe (subscribe store (some email)).store (some email)).status = 200 ∧
    (subscribe (subscribe store (some email)).store (some email)).store
      = (subscribe store (some email)).store ∧
    (subscribe (subscribe store (some email)).store (some email)).store.count
      email = 1 := by
  have hOr : jsOrS (some email) "" = email := by
    simp [jsOrS, hasAt_ne_empty hAt]
  have hAt' : hasAt (jsOrS (some email) "") = true := by rw [hOr]; exact hAt
  by_cases hmem : email ∈ store
  · have h1 := subscribe_eq_dup store (some email) hAt' (by rw [hOr]; exact hmem)
    rw [h1]
    have h2 := subscribe_eq_dup store (some email) hAt' (by rw [hOr]; exact hmem)
    rw [h2]
    have hpos : 0 < store.count email := List.count_pos_iff.mpr hmem
    refine ⟨rfl, rfl, rfl, ?_⟩
    show store.count email = 1
    omega
  · have h1 := subscribe_eq_new store (some email) hAt' (by rw [hOr]; exact hmem)
    rw [h1, hOr]
    have hmem2 : email ∈ store ++ [email] :=
      List.mem_append_right store (List.mem_singleton.mpr rfl)
    have h2 := subscribe_eq_dup (store ++ [email]) (some email) hAt'
      (by rw [hOr]; exact hmem2)
    rw [h2]
    refine ⟨rfl, rfl, rfl, ?_⟩
    rw [List.count_append, List.count_eq_zero_of_not_mem hmem,
      List.count_singleton_self]

/-- Witness for C5 from the empty store. -/
theorem subscribe_twice_idempotent_witness :
    (subscribe [] (some "witch@cauldron.online")).status = 200 ∧
    (subscribe (subscribe [] (some "witch@cauldron.online")).store
        (some "witch@cauldron.online")).status = 200 ∧
    (subscribe (subscribe [] (some "witch@cauldron.online")).store
        (some "witch@cauldron.online")).store
      = (subscribe [] (some "witch@cauldron.online")).store ∧
    (subscribe (subscribe [] (some "witch@cauldron.online")).store
        (some "witch@cauldron.online")).store.count "witch@cauldron.online"
      = 1 :=
  subscribe_twice_idempotent [] "witch@cauldron.online" (by decide) (by decide)

/-- **C6.** `POST /subscribe` answers 400 `{error: "Invalid email address."}`
exactly when the email field is missing, empty, or a string without an `@`
character — presence of an `@` is the only format check. -/
theorem subscribe_invalid_email_iff (store : List String)
    (emailField : Option String) :
    ((subscribe store emailField).status = 400 ∧
      (subscribe store emailField).body
        = SubscribeBody.errorBody "Invalid email address.")
      ↔ (emailField = none ∨ emailField = some "" ∨
          ∃ s, emailField = some s ∧ hasAt s = false) := by
  rw [← invalidCond_iff]
  constructor
  · intro h
    by_contra hAt
    have hAt' : hasAt (jsOrS emailField "") = true := by
      cases hv : hasAt (jsOrS emailField "")
      · exact absurd hv hAt
      · rfl
    by_cases hmem : jsOrS emailField "" ∈ store
    · rw [subscribe_eq_dup store emailField hAt' hmem] at h
      simp at h
    · rw [subscribe_eq_new store emailField hAt' hmem] at h
      simp at h
  · intro h
    rw [subscribe_eq_invalid store emailField h]
    exact ⟨rfl, rfl⟩

/-- Witness for C6, in both directions: the spec's concrete scenario
`{email: "not-an-email"}` is rejected, and an email with an `@` is not. -/
theorem subscribe_invalid_email_iff_witness :
    (subscribe [] (some "not-an-email")).status = 400 ∧
    (subscribe [] (some "not-an-email")).body
      = SubscribeBody.errorBody "Invalid email address." :=
  (subscribe_invalid_email_iff [] (some "not-an-email")).mpr
    (Or.inr (Or.inr ⟨"not-an-email", rfl, by decide⟩))

/-- **C9.** The term named on a banned-ingredients rejection is the first
matching term in the order of the `BANNED` list itself — every term listed
before it does not occur in the lowercased ingredients — regardless of where
the matches sit inside the input (and `bannedHit` is a pure function of the
ingredients string, so the choice is deterministic). -/
theorem bannedHit_first_in_list_order (s t : String)
    (h : bannedHit s = some t) :
    strIncludes (jsToLower s) t = true ∧
    ∃ pre post, BANNED = pre ++ t :: post ∧
      ∀ t' ∈ pre, strIncludes (jsToLower s) t' = false := by
  unfold bannedHit at h
  by_cases he : jsToLower s = ""
  · rw [if_pos he] at h
    exact absurd h (by simp)
  · rw [if_neg he] at h
    have h' := List.find?_eq_some.mp h
    refine ⟨h'.1, ?_⟩
    obtain ⟨pre, post, hsplit, hpre⟩ := h'.2
    refine ⟨pre, post, hsplit, fun t' ht' => ?_⟩
    have := hpre t' ht'
    simpa using this

/-- Witness for C9: in `"knife gun"` the input-earliest match is `"knife"`,
but the reported term is `"gun"`, which precedes `"knife"` in `BANNED`. -/
theorem bannedHit_first_in_list_order_witness :
    strIncludes (jsToLower "knife gun") "gun" = true ∧
    ∃ pre post, BANNED = pre ++ "gun" :: post ∧
      ∀ t' ∈ pre, strIncludes (jsToLower "knife gun") t' = false :=
  bannedHit_first_in_list_order "knife gun" "gun" (by decide)

/-- **C10.** The duplicate check compares exact strings: two valid emails
that differ as strings (for example only in letter case) are both accepted
with `"Subscription successful!"` and both are appended to the store. -/
theorem subscribe_case_sensitive_duplicates (store : List String)
    (e1 e2 : String) (hne : e1 ≠ e2)
    (h1 : hasAt e1 = true) (h2 : hasAt e2 = true)
    (m1 : e1 ∉ store) (m2 : e2 ∉ store) :
    (subscribe store (some e1)).status = 200 ∧
    (subscribe store (some e1)).body
      = SubscribeBody.messageBody "Subscription successful!" ∧
    (subscribe (subscribe store (some e1)).store (some e2)).status = 200 ∧
    (subscribe (subscribe store (some e1)).store (some e2)).body
      = SubscribeBody.messageBody "Subscription successful!" ∧
    (subscribe (subscribe store (some e1)).store (some e2)).store
      = store ++ [e1, e2] := by
  have hOr1 : jsOrS (some e1) "" = e1 := by simp [jsOrS, hasAt_ne_empty h1]
  have hOr2 : jsOrS (some e2) "" = e2 := by simp [jsOrS, hasAt_ne_empty h2]
  have hAt1 : hasAt (jsOrS (some e1) "") = true := by rw [hOr1]; exact h1
  have hAt2 : hasAt (jsOrS (some e2) "") = true := by rw [hOr2]; exact h2
  have r1 := subscribe_eq_new store (some e1) hAt1 (by rw [hOr1]; exact m1)
  rw [r1, hOr1]
  have hm2' : e2 ∉ store ++ [e1] := by
    intro hmem
    rcases List.mem_append.mp hmem with hmem | hmem
    · exact m2 hmem
    · exact hne (List.mem_singleton.mp hmem).symm
  have r2 := subscribe_eq_new (store ++ [e1]) (some e2) hAt2
    (by rw [hOr2]; exact hm2')
  rw [r2, hOr2]
  exact ⟨rfl, rfl, rfl, rfl, by simp⟩

/-- Witness for C10: `"Foo@example.com"` and `"foo@example.com"` denote the
same mailbox but are both stored. -/
theorem subscribe_case_sensitive_duplicates_witness :
    (subscribe [] (some "Foo@example.com")).status = 200 ∧
    (subscribe [] (some "Foo@example.com")).body
      = SubscribeBody.messageBody "Subscription successful!" ∧
    (subscribe (subscribe [] (some "Foo@example.com")).store
        (some "foo@example.com")).status = 200 ∧
    (subscribe (subscribe [] (some "Foo@example.com")).store
        (some "foo@example.com")).body
      = SubscribeBody.messageBody "Subscription successful!" ∧
    (subscribe (subscribe [] (some "Foo@example.com")).store
        (some "foo@example.com")).store
      = [] ++ ["Foo@example.com", "foo@example.com"] :=
  subscribe_case_sensitive_duplicates [] "Foo@example.com" "foo@example.com"
    (by decide) (by decide) (by decide) (by decide) (by decide)

/-- **C1.** Whenever the ingredients string contains some banned term as a
substring (case-insensitively — i.e. the term occurs in the lowercased
string), `POST /cast-spell` answers 400 and the error message names an
offending banned term (one actually occurring in the lowercased
ingredients, by C9 the first such in list order). -/
theorem castSpell_banned_rejected (req : CastSpellRequest)
    (u : Except UpstreamError (Option Completion)) (dbOk : Bool) (t : String)
    (ht : t ∈ BANNED)
    (hc : strIncludes (jsToLower (jsOrS req.ingredients "")) t = true) :
    ∃ t', t' ∈ BANNED ∧
      strIncludes (jsToLower (trimJs (jsOrS req.ingredients ""))) t' = true ∧
      (castSpell req u dbOk).response = ⟨400, .errorBody (bannedMessage t')⟩ ∧
      strIncludes (bannedMessage t') t' = true := by
  have hseg : ∃ a b,
      (jsToLower (jsOrS req.ingredients "")).data = a ++ t.data ++ b :=
    (segIn_iff t.data (jsToLower (jsOrS req.ingredients "")).data).mp hc
  obtain ⟨hH, hL⟩ := banned_ends t ht
  obtain ⟨c, hc1, hc2⟩ := headNonWs_spec t hH
  obtain ⟨d, hd1, hd2⟩ := lastNonWs_spec t hL
  have hseg2 : ∃ a b,
      trimListJs ((jsToLower (jsOrS req.ingredients "")).data)
        = a ++ t.data ++ b :=
    trim_keeps_seg t.data _ c d hc1 hc2 hd1 hd2 hseg
  have hcomm : trimListJs ((jsToLower (jsOrS req.ingredients "")).data)
      = (jsToLower (trimJs (jsOrS req.ingredients ""))).data := by
    rw [jsToLower_data, jsToLower_data, trimJs_data,
      trimListJs_map jsToLowerChar ws_jsToLowerChar]
  rw [hcomm] at hseg2
  have hinc : strIncludes (jsToLower (trimJs (jsOrS req.ingredients ""))) t
      = true := (segIn_iff t.data _).mpr hseg2
  have hne : jsToLower (trimJs (jsOrS req.ingredients "")) ≠ "" := by
    intro h0
    obtain ⟨a, b, hab⟩ := hseg2
    rw [(str_eq_empty_iff _).mp h0] at hab
    have h1 := List.append_eq_nil.mp hab.symm
    have h2 := List.append_eq_nil.mp h1.1
    rw [h2.2] at hc1
    simp at hc1
  have hfind : (BANNED.find? fun t0 =>
      strIncludes (jsToLower (trimJs (jsOrS req.ingredients ""))) t0).isSome :=
    List.find?_isSome.mpr ⟨t, ht, hinc⟩
  obtain ⟨t', ht'eq⟩ := Option.isSome_iff_exists.mp hfind
  have hhit : bannedHit (trimJs (jsOrS req.ingredients "")) = some t' := by
    unfold bannedHit
    rw [if_neg hne]
    exact ht'eq
  have hmem' : t' ∈ BANNED := List.mem_of_find?_eq_some ht'eq
  have hp : strIncludes (jsToLower (trimJs (jsOrS req.ingredients ""))) t'
      = true := List.find?_some ht'eq
  refine ⟨t', hmem', hp, ?_, ?_⟩
  · simp [castSpell, hhit]
  · apply (segIn_iff _ _).mpr
    refine ⟨bannedMessagePre.data, bannedMessagePost.data, ?_⟩
    rw [bannedMessage, strData_append, strData_append]

/-- Witness for C1: `"Bring a GUN"` (mixed case, with surrounding context)
is rejected and the message names a banned term. -/
theorem castSpell_banned_rejected_witness :
    ∃ t', t' ∈ BANNED ∧
      strIncludes (jsToLower (trimJs (jsOrS (some "Bring a GUN") ""))) t'
        = true ∧
      (castSpell ⟨some "peace", none, some "Bring a GUN"⟩
          (.ok none) true).response
        = ⟨400, .errorBody (bannedMessage t')⟩ ∧
      strIncludes (bannedMessage t') t' = true :=
  castSpell_banned_rejected ⟨some "peace", none, some "Bring a GUN"⟩
    (.ok none) true "gun" (by decide) (by decide)

/-- **C2, counterexample.** A request whose intent is whitespace-only but
whose ingredients contain a banned term is answered with the safety-filter
message, not with `"No intention provided."`: the safety check runs first,
so the claimed response is *not* independent of the other fields. -/
theorem castSpell_empty_intent_counterexample :
    trimJs (jsOrS (some " ") "") = "" ∧
    (castSpell ⟨some " ", none, some "a gun"⟩ (.ok none) true).response.status
      = 400 ∧
    (castSpell ⟨some " ", none, some "a gun"⟩ (.ok none) true).response
      ≠ ⟨400, JsonBody.errorBody "No intention provided."⟩ := by
  refine ⟨by decide, by decide, by decide⟩

/-- **C2, amended.** An empty or whitespace-only intent yields 400 with
`"No intention provided."` regardless of the other fields, *provided* the
ingredients do not trip the safety filter (which runs first). -/
theorem castSpell_empty_intent_rejected (req : CastSpellRequest)
    (u : Except UpstreamError (Option Completion)) (dbOk : Bool)
    (hf : bannedHit (trimJs (jsOrS req.ingredients "")) = none)
    (hi : trimJs (jsOrS req.intent "") = "") :
    (castSpell req u dbOk).response
      = ⟨400, .errorBody "No intention provided."⟩ := by
  simp [castSpell, hf, hi]

/-- Witness for the amended C2: missing intent, unusual length value,
benign ingredients. -/
theorem castSpell_empty_intent_rejected_witness :
    (castSpell ⟨none, some "LONG", some "rose petals"⟩
        (.ok none) false).response
      = ⟨400, JsonBody.errorBody "No intention provided."⟩ :=
  castSpell_empty_intent_rejected ⟨none, some "LONG", some "rose petals"⟩
    (.ok none) false (by decide) (by decide)

/-- **C3.** The Length Preset Resolver does *not* always yield one of the
three presets: a length value naming a property inherited from
`Object.prototype` that survives lowercasing (`"constructor"`,
`"__proto__"`) makes `lengthConfig[length]` produce a truthy non-preset
value, so the `|| lengthConfig.medium` fallback is skipped and the OpenAI
call is issued with no preset (`max_tokens` and the guide are
`undefined`). -/
theorem lengthResolver_prototype_leak :
    resolveLengthField (some "constructor") = JsLookup.protoValue ∧
    resolveLengthField (some "__proto__") = JsLookup.protoValue ∧
    (∀ p : LengthPreset, JsLookup.protoValue ≠ JsLookup.preset p) ∧
    (castSpell ⟨some "find clarity", some "constructor", none⟩ (.ok none)
        true).events.head? = some (.callCompletion JsLookup.protoValue) := by
  refine ⟨by decide, by decide, fun p h => JsLookup.noConfusion h, by decide⟩

/-- **C8.** On the success path the event order is: completion call,
response to the caller, database insert — the insert is issued only after
the response has been sent; it is issued exactly once; and a failing insert
adds only a log event, leaving the response (status and body) identical to
the one sent when the insert succeeds. -/
theorem castSpell_db_after_response (req : CastSpellRequest)
    (c : Option Completion) (dbOk : Bool)
    (hf : bannedHit (trimJs (jsOrS req.ingredients "")) = none)
    (hi : trimJs (jsOrS req.intent "") ≠ "") :
    (castSpell req (.ok c) dbOk).response = ⟨200, .spellBody (spellOf c)⟩ ∧
    (castSpell req (.ok c) dbOk).events
      = [.callCompletion (resolveLength (jsToLower (jsOrS req.length "medium"))),
         .respond ⟨200, .spellBody (spellOf c)⟩,
         .dbInsert (trimJs (jsOrS req.intent ""))
           (jsToLower (jsOrS req.length "medium")) (spellOf c)]
        ++ (if dbOk then [] else [.logDbError]) ∧
    (castSpell req (.ok c) dbOk).events.countP Event.isDbInsert = 1 ∧
    (castSpell req (.ok c) true).response
      = (castSpell req (.ok c) false).response := by
  refine ⟨by simp [castSpell, hf, hi], by simp [castSpell, hf, hi], ?_, ?_⟩
  · cases dbOk <;>
      simp [castSpell, hf, hi, List.countP_cons, Event.isDbInsert]
  · simp [castSpell, hf, hi]

/-- Witness for C8: concrete request, empty completion, failing insert. -/
theorem castSpell_db_after_response_witness :
    (castSpell ⟨some "find clarity", some "short", none⟩
        (.ok none) false).events.countP Event.isDbInsert = 1 ∧
    (castSpell ⟨some "find clarity", some "short", none⟩
        (.ok none) true).response
      = (castSpell ⟨some "find clarity", some "short", none⟩
          (.ok none) false).response :=
  ⟨(castSpell_db_after_response ⟨some "find clarity", some "short", none⟩
      none false (by decide) (by decide)).2.2.1,
   (castSpell_db_after_response ⟨some "find clarity", some "short", none⟩
      none false (by decide) (by decide)).2.2.2⟩

end Cauldron
